import Mathlib

/-!
Verification of the order-reconciliation pipeline of `preorder-gather.py`.

The Python script aggregates Square orders into per-product totals and
per-customer order histories, resolves catalog metadata through a cached
fetcher, merges near-duplicate customer names, and validates published
totals against the stored histories.  The definitions below are a shallow
embedding of the relevant functions; Python dicts are modelled as
insertion-ordered association lists, `int(float(x))` as truncation toward
zero on rationals, and exceptions as `Option`/`Except` results.
-/

set_option maxHeartbeats 1000000
set_option maxRecDepth 4000

namespace PreorderGather

/-- Association-list lookup, modelling Python dict access `d[k]` / `d.get(k)`
(first binding wins; our insertion discipline keeps keys unique). -/
def alLookup {β : Type} : List (String × β) → String → Option β
  | [], _ => none
  | p :: rest, k => if p.1 = k then some p.2 else alLookup rest k

/-- Python dict assignment `d[k] = v`: replaces the binding in place when the
key exists (dicts keep the original position), otherwise appends. -/
def alInsert {β : Type} : List (String × β) → String → β → List (String × β)
  | [], k, v => [(k, v)]
  | p :: rest, k, v => if p.1 = k then (k, v) :: rest else p :: alInsert rest k v

/-! ### Catalog resolver (`get_catalog_item`, `is_market_item`) -/

/-- A catalog object as consumed by `get_catalog_item` / `is_market_item`:
its `type`, the variation's `item_variation_data.item_id` (empty string when
absent, matching `get('item_id', '')`), the ids of `item_data.categories`,
and whether a non-empty stale `parent_item` field is embedded (the code only
ever tests that field's emptiness and deletes it). -/
structure CatalogObj where
  ctype : String
  parentItemId : String
  categoryIds : List String
  parentItem : Bool
deriving Repr, DecidableEq

/-- Result of one `get_catalog_item` call: the returned object (`None` on a
failed fetch), the catalog cache afterwards, and the ids that were fetched
remotely (in order), used to count remote calls. -/
structure GCResult where
  found : Option CatalogObj
  cache : List (String × CatalogObj)
  fetched : List String
deriving Repr, DecidableEq

/-- One step of `get_catalog_item`, with the recursive parent prefetch
abstracted as `recur` so the fuelled driver below is structurally recursive.
Cache hit: a variation carrying a non-empty stale `parent_item` field has it
deleted and the cache updated (self-healing normalization).  Cache miss: a
failed remote fetch is caught and yields `None` without caching; a successful
fetch is cached, and a fetched variation eagerly resolves its parent item when
its parent id is non-empty. -/
def gciCore (remote : String → Option CatalogObj)
    (recur : List (String × CatalogObj) → String → GCResult)
    (cache : List (String × CatalogObj)) (itemId : String) : GCResult :=
  match alLookup cache itemId with
  | some v =>
    if v.ctype = "ITEM_VARIATION" ∧ v.parentItem = true then
      let v2 := { v with parentItem := false }
      ⟨some v2, alInsert cache itemId v2, []⟩
    else ⟨some v, cache, []⟩
  | none =>
    match remote itemId with
    | none => ⟨none, cache, [itemId]⟩
    | some itemData =>
      let cache1 := alInsert cache itemId itemData
      if itemData.ctype = "ITEM_VARIATION" ∧ itemData.parentItemId ≠ "" then
        let r := recur cache1 itemData.parentItemId
        ⟨some itemData, r.cache, itemId :: r.fetched⟩
      else ⟨some itemData, cache1, [itemId]⟩

/-- Embedding of `get_catalog_item`.  `remote` is the Square catalog endpoint
(`none` = request error, caught and logged by the code); `fuel` bounds the
parent-prefetch recursion depth (the Python recursion terminates because each
nested call either hits the cache or caches a fresh id first; any `fuel` at
least the number of distinct ids reachable through parent hops is exact). -/
def get_catalog_item (remote : String → Option CatalogObj) :
    Nat → List (String × CatalogObj) → String → GCResult
  | 0 => gciCore remote (fun c _ => ⟨none, c, []⟩)
  | Nat.succ f => gciCore remote (get_catalog_item remote f)

/-- Embedding of `is_market_item`.  A falsy `item_data` returns `False`.
`category_ids` stays empty unless the object is an `ITEM_VARIATION`, in which
case the parent item is resolved and its category ids are collected; a parent
resolution returning `None` makes `parent_item.get('item_data', {})` raise
`AttributeError`, modelled as `Except.error ()`. -/
def is_market_item (marketCategoryId : String) (remote : String → Option CatalogObj)
    (fuel : Nat) (cache : List (String × CatalogObj)) (itemData : Option CatalogObj) :
    Except Unit Bool × List (String × CatalogObj) :=
  match itemData with
  | none => (Except.ok false, cache)
  | some it =>
    if it.ctype = "ITEM_VARIATION" then
      let r := get_catalog_item remote fuel cache it.parentItemId
      match r.found with
      | none => (Except.error (), r.cache)
      | some parent => (Except.ok (parent.categoryIds.contains marketCategoryId), r.cache)
    else (Except.ok (([] : List String).contains marketCategoryId), cache)

/-- Category membership as worded by the spec (for the refinement comparison
of claim C4): resolve a variation to its parent item and a plain item to
itself, then test whether any category reference of the resolved item equals
the configured identifier; `none` when the parent resolution fails. -/
def specCategoryMember (marketCategoryId : String) (remote : String → Option CatalogObj)
    (fuel : Nat) (cache : List (String × CatalogObj)) (it : CatalogObj) : Option Bool :=
  if it.ctype = "ITEM_VARIATION" then
    match (get_catalog_item remote fuel cache it.parentItemId).found with
    | none => none
    | some parent => some (parent.categoryIds.contains marketCategoryId)
  else some (it.categoryIds.contains marketCategoryId)

/-! ### Order data model -/

/-- A fulfillment recipient block; `displayName` models
`recipient.get('display_name', 'N/A')`. -/
structure Recipient where
  displayName : Option String
deriving Repr, DecidableEq

/-- A fulfillment: its `state` and the recipient blocks of `pickup_details`
and `shipment_details` (`none` models a missing or empty block, which Python
treats as falsy). -/
structure Fulfillment where
  state : Option String
  pickupRecipient : Option Recipient
  shipmentRecipient : Option Recipient
deriving Repr, DecidableEq

/-- A line item.  `quantity` is the result of `float(item.get('quantity', 0))`:
`some q` for a parsed decimal (a missing key parses as `0`), `none` when the
string does not parse and `float` raises. -/
structure LineItem where
  catalogObjectId : Option String
  name : Option String
  variationName : Option String
  quantity : Option Rat
deriving Repr, DecidableEq

/-- An order as consumed by the `Order` wrapper class. -/
structure Order where
  id : Option String
  createdAt : Option String
  state : Option String
  amountDue : Int
  fulfillments : List Fulfillment
  lineItems : List LineItem
deriving Repr, DecidableEq

/-- `Order._get_first_fulfillment`. -/
def Order.firstFulfillment (o : Order) : Option Fulfillment := o.fulfillments.head?

/-- `Order.get_order_id`. -/
def Order.getOrderId (o : Order) : String := o.id.getD "N/A"

/-- `Order.get_created_at`. -/
def Order.getCreatedAt (o : Order) : String := o.createdAt.getD "N/A"

/-- `Order.get_amount_due`. -/
def Order.getAmountDue (o : Order) : Int := o.amountDue

/-- `Order.get_state`. -/
def Order.getState (o : Order) : String := o.state.getD ""

/-- `Order.get_fulfillment_status`. -/
def Order.getFulfillmentStatus (o : Order) : String :=
  match o.firstFulfillment with
  | none => "NO_FULFILLMENT"
  | some f => f.state.getD ""

/-- The `name` field of `Order.get_customer_info`: the pickup recipient when
present and non-empty, else the shipment recipient, with `'N/A'` defaults. -/
def Order.customerDisplayName (o : Order) : String :=
  match o.firstFulfillment with
  | none => "N/A"
  | some f =>
    match f.pickupRecipient with
    | some r => r.displayName.getD "N/A"
    | none =>
      match f.shipmentRecipient with
      | some r => r.displayName.getD "N/A"
      | none => "N/A"

/-- `Order.is_still_shopping`. -/
abbrev Order.isStillShopping (o : Order) : Prop :=
  o.getAmountDue > 0 ∨ o.getState = "DRAFT"

/-- `Order.is_cancelled`. -/
abbrev Order.isCancelled (o : Order) : Prop := o.getState = "CANCELED"

/-- `Order.is_completed_or_picked_up`. -/
abbrev Order.isCompletedOrPickedUp (o : Order) : Prop :=
  o.getFulfillmentStatus = "COMPLETED" ∨ o.getFulfillmentStatus = "PICKED_UP"

/-- `OrderItem.get_name`: qualify the display name with the variation label
unless the variation is `'Regular'` or empty (Python renders a missing `name`
as the string `"None"` inside the f-string branch). -/
def lineItemDisplayName (li : LineItem) : String :=
  let variation := li.variationName.getD ""
  if variation ≠ "Regular" ∧ variation ≠ "" then
    (match li.name with | some n => n | none => "None") ++ " (" ++ variation ++ ")"
  else li.name.getD ""

/-- `COMPLETED_ORDER_NAME`: the force-process allow-list name. -/
def COMPLETED_ORDER_NAME : String := "Scott Wagner"

/-- `DO_NOT_PROCESS_ORDER_IDS`: the explicit deny-list of order ids. -/
def DO_NOT_PROCESS_ORDER_IDS : List String :=
  ["WSFVqjYiFrqhAhemUkibkGP5YvBZY", "OO59PA9nVbYnK5xjnE5EJor3GFSZY"]

/-! ### Aggregation state (`ITEM_QUANTITIES`, `ORDER_STATUS_COUNTS`,
`CUSTOMER_ORDERS`) and `process_order` -/

/-- One `ITEM_QUANTITIES` entry: `{'name': ..., 'quantity': ..., 'qty_in_carts': ...}`. -/
structure ItemAgg where
  name : String
  quantity : Int
  qtyInCarts : Int
deriving Repr, DecidableEq

/-- `ORDER_STATUS_COUNTS`. -/
structure StatusCounts where
  notFulfilled : Nat
  pickedUp : Nat
  completed : Nat
  noFulfillment : Nat
  stillShopping : Nat
  canceled : Nat
deriving Repr, DecidableEq

/-- One entry of a customer's order history (`order_details`). -/
structure OrderDetails where
  orderId : String
  createdAt : String
  status : String
  items : List (String × Int)
deriving Repr, DecidableEq

/-- The mutable aggregation state of a run. -/
structure AggState where
  itemQuantities : List (String × ItemAgg)
  counts : StatusCounts
  customerOrders : List (String × List OrderDetails)
deriving Repr, DecidableEq

/-- The initial (module-load) aggregation state. -/
def initialState : AggState := ⟨[], ⟨0, 0, 0, 0, 0, 0⟩, []⟩

/-- Python `int(float(q))`: truncation toward zero (`Int.tdiv` truncates). -/
def truncToInt (q : Rat) : Int := Int.tdiv q.num (q.den : Int)

/-- `if customer_name not in CUSTOMER_ORDERS: CUSTOMER_ORDERS[customer_name] = []`. -/
def ensureCustomerKey (co : List (String × List OrderDetails)) (name : String) :
    List (String × List OrderDetails) :=
  match alLookup co name with
  | some _ => co
  | none => co ++ [(name, [])]

/-- `CUSTOMER_ORDERS[customer_name].append(order_details)` (the key exists). -/
def appendCustomerOrder (co : List (String × List OrderDetails)) (name : String)
    (od : OrderDetails) : List (String × List OrderDetails) :=
  co.map (fun p => if p.1 = name then (p.1, p.2 ++ [od]) else p)

/-- The body of the line-item loop of `process_order`, acting on the pair
(order_details item list, `ITEM_QUANTITIES`).  `none` models the `ValueError`
raised by `float` on an unparsable quantity, before any mutation for this
item.  A line item without `catalog_object_id` updates only the detail list. -/
def processLineItem (acc : List (String × Int) × List (String × ItemAgg)) (li : LineItem) :
    Option (List (String × Int) × List (String × ItemAgg)) :=
  match li.quantity with
  | none => none
  | some q =>
    let qty := truncToInt q
    let detail := acc.1 ++ [(lineItemDisplayName li, qty)]
    let itemQ :=
      match li.catalogObjectId with
      | none => acc.2
      | some cid =>
        match alLookup acc.2 cid with
        | none => alInsert acc.2 cid ⟨lineItemDisplayName li, qty, 0⟩
        | some agg => alInsert acc.2 cid { agg with quantity := agg.quantity + qty }
    some (detail, itemQ)

/-- The line-item loop: processes items left to right; an exception stops the
loop, keeping the mutations of the earlier items (`false` = raised). -/
def processLineItems : List LineItem → (List (String × Int) × List (String × ItemAgg)) →
    ((List (String × Int) × List (String × ItemAgg)) × Bool)
  | [], acc => (acc, true)
  | li :: rest, acc =>
    match processLineItem acc li with
    | none => (acc, false)
    | some acc2 => processLineItems rest acc2

/-- Embedding of `process_order`: the early-return ladder (no fulfillment,
deny-list, still shopping, completed/picked up, canceled), then acceptance:
the `NOT_FULFILLED` counter, the customer-history key, the line-item loop,
and the appended order summary.  The `Bool` is the return value (`False` both
for skips and for a caught per-order exception, whose partial mutations
remain). -/
def process_order (s : AggState) (o : Order) : AggState × Bool :=
  if o.firstFulfillment = none then
    ({ s with counts := { s.counts with noFulfillment := s.counts.noFulfillment + 1 } }, false)
  else
    let customerName := o.customerDisplayName
    if o.getOrderId ∈ DO_NOT_PROCESS_ORDER_IDS then (s, false)
    else if ¬ customerName = COMPLETED_ORDER_NAME ∧ o.isStillShopping then
      ({ s with counts := { s.counts with stillShopping := s.counts.stillShopping + 1 } }, false)
    else if ¬ customerName = COMPLETED_ORDER_NAME ∧ o.isCompletedOrPickedUp then
      (if o.getFulfillmentStatus = "COMPLETED" then
        ({ s with counts := { s.counts with completed := s.counts.completed + 1 } }, false)
       else
        ({ s with counts := { s.counts with pickedUp := s.counts.pickedUp + 1 } }, false))
    else if ¬ customerName = COMPLETED_ORDER_NAME ∧ o.isCancelled then
      ({ s with counts := { s.counts with canceled := s.counts.canceled + 1 } }, false)
    else
      let s1 : AggState :=
        { s with counts := { s.counts with notFulfilled := s.counts.notFulfilled + 1 },
                 customerOrders := ensureCustomerKey s.customerOrders customerName }
      let r := processLineItems o.lineItems ([], s.itemQuantities)
      if r.2 then
        ({ s1 with itemQuantities := r.1.2,
                   customerOrders := appendCustomerOrder s1.customerOrders customerName
                     ⟨o.getOrderId, o.getCreatedAt, o.getFulfillmentStatus, r.1.1⟩ }, true)
      else ({ s1 with itemQuantities := r.1.2 }, false)

/-- An order that reaches the aggregation part of `process_order`: it has a
fulfillment, is not deny-listed, and either carries the force-process
allow-list name or matches none of the skip rules. -/
abbrev orderAccepted (o : Order) : Prop :=
  o.firstFulfillment ≠ none ∧ o.getOrderId ∉ DO_NOT_PROCESS_ORDER_IDS ∧
    (o.customerDisplayName = COMPLETED_ORDER_NAME ∨
      (¬ o.isStillShopping ∧ ¬ o.isCompletedOrPickedUp ∧ ¬ o.isCancelled))

/-! ### Reconciliation validator (`save_preorder_data`, lines 525–534 and 636–670) -/

/-- One inner step of the expected-totals summation:
`if item_name not in expected_totals: expected_totals[item_name] = 0` followed
by `expected_totals[item_name] += quantity`. -/
def addExpected (m : List (String × Int)) (iname : String) (q : Int) : List (String × Int) :=
  match alLookup m iname with
  | none => alInsert m iname q
  | some v => alInsert m iname (v + q)

/-- `expected_totals`: per-item quantities summed from every stored customer
order history. -/
def expected_totals (co : List (String × List OrderDetails)) : List (String × Int) :=
  co.foldl (fun acc p =>
    p.2.foldl (fun acc2 od =>
      od.items.foldl (fun acc3 it => addExpected acc3 it.1 it.2) acc2) acc) []

/-- `'pre-order' in item.lower()`: the reportable-item marker test
(`item.lower()` modelled per character for ASCII names). -/
def isReportableName (s : String) : Bool :=
  decide ("pre-order".toList <:+: s.toList.map Char.toLower)

/-- Python string `<=` (lexicographic by code point), used by `sorted`. -/
def charListLe : List Char → List Char → Bool
  | [], _ => true
  | _ :: _, [] => false
  | x :: xs, y :: ys => if x = y then charListLe xs ys else decide (x < y)

/-- Insert into a sorted list of strings (insertion step of `sorted`). -/
def insertSortedStr (x : String) : List String → List String
  | [] => [x]
  | y :: ys => if charListLe x.toList y.toList then x :: y :: ys else y :: insertSortedStr x ys

/-- `sorted` on a list of strings. -/
def sortStrings : List String → List String
  | [] => []
  | x :: xs => insertSortedStr x (sortStrings xs)

/-- Set union keeping one occurrence per name (`keys() | keys()`). -/
def dedupKeep : List String → List String
  | [] => []
  | x :: xs => x :: (dedupKeep xs).filter (fun y => decide (y ≠ x))

/-- The diagnostic printed for one discrepancy: the item name, the expected
and actual totals, and every stored order line carrying that name as
`(order id, customer, quantity, status, created at)`. -/
structure Discrepancy where
  item : String
  expected : Int
  actual : Int
  lines : List (String × String × Int × String × String)
deriving Repr, DecidableEq

/-- The per-order lines printed under a discrepancy: every item record of
every stored customer order whose name equals the discrepant name. -/
def matchingOrderLines (co : List (String × List OrderDetails)) (iname : String) :
    List (String × String × Int × String × String) :=
  co.foldl (fun acc p =>
    p.2.foldl (fun acc2 od =>
      od.items.foldl (fun acc3 it =>
        if it.1 = iname then acc3 ++ [(od.orderId, p.1, it.2, od.status, od.createdAt)]
        else acc3) acc2) acc) []

/-- `sorted({item for item in (expected.keys() | actual.keys()) if 'pre-order'
in item.lower()})`. -/
def validator_all_items (expected actual : List (String × Int)) : List String :=
  sortStrings ((dedupKeep (expected.map Prod.fst ++ actual.map Prod.fst)).filter
    (fun n => isReportableName n))

/-- The validation loop of `save_preorder_data`: for each reportable name in
either totals map (a missing entry reads as `0` via `.get(item, 0)`), emit a
discrepancy diagnostic exactly when expected and actual differ. -/
def validator_discrepancies (co : List (String × List OrderDetails))
    (actual : List (String × Int)) : List Discrepancy :=
  let expected := expected_totals co
  (validator_all_items expected actual).filterMap (fun n =>
    let e := (alLookup expected n).getD 0
    let a := (alLookup actual n).getD 0
    if e ≠ a then some ⟨n, e, a, matchingOrderLines co n⟩ else none)

/-! ### Report preparation filter (`save_preorder_data`, lines 539–541) -/

/-- The catalog filter of the report-preparation loop: for each
`ITEM_QUANTITIES` entry, resolve the catalog object and keep the entry when
`catalog_item and is_market_item(catalog_item)`; an exception raised by
`is_market_item` propagates and aborts the whole step. -/
def collect_market_items (marketCategoryId : String) (remote : String → Option CatalogObj)
    (fuel : Nat) : List (String × ItemAgg) → List (String × CatalogObj) →
    Except Unit (List (String × ItemAgg)) × List (String × CatalogObj)
  | [], cache => (Except.ok [], cache)
  | (itemId, agg) :: rest, cache =>
    let r := get_catalog_item remote fuel cache itemId
    match r.found with
    | none => collect_market_items marketCategoryId remote fuel rest r.cache
    | some ci =>
      match is_market_item marketCategoryId remote fuel r.cache (some ci) with
      | (Except.error e, c2) => (Except.error e, c2)
      | (Except.ok b, c2) =>
        let r2 := collect_market_items marketCategoryId remote fuel rest c2
        match r2.1 with
        | Except.error e => (Except.error e, r2.2)
        | Except.ok rows => (Except.ok (if b then (itemId, agg) :: rows else rows), r2.2)

/-! ### Customer identity merger (`save_customer_orders`, lines 749–795) -/

/-- Python `a in b` on strings: contiguous-substring test (an empty needle
always matches). -/
def pySubstr (a b : String) : Bool := decide (a.toList <:+: b.toList)

/-- `name in merged_customers`: membership among the canonical keys. -/
def mcHasKey (mc : List (String × List String)) (k : String) : Bool :=
  mc.any (fun p => decide (p.1 = k))

/-- Append `member` to the group of `canonical` unless already present. -/
def mcAppendMember (mc : List (String × List String)) (canonical member : String) :
    List (String × List String) :=
  mc.map (fun p => if p.1 = canonical then
      (p.1, if member ∈ p.2 then p.2 else p.2 ++ [member]) else p)

/-- The merge of one related pair: the canonical name is
`name1 if len(name1) >= len(name2) else name2`; its group is created when
missing and both names are appended to it (without duplicates). -/
def mcAddPair (mc : List (String × List String)) (name1 name2 : String) :
    List (String × List String) :=
  let canonical := if name1.length ≥ name2.length then name1 else name2
  let mc1 := if mcHasKey mc canonical then mc else mc ++ [(canonical, [])]
  mcAppendMember (mcAppendMember mc1 canonical name1) canonical name2

/-- The inner loop of the first merge pass over `customer_names[i+1:]`:
`name2` is skipped when it is already a canonical key; otherwise a pair with
a substring relation (either direction) is merged. -/
def mergeInner (name1 : String) : List String → List (String × List String) →
    List (String × List String)
  | [], mc => mc
  | name2 :: rest, mc =>
    let mc2 :=
      if mcHasKey mc name2 then mc
      else if pySubstr name1 name2 || pySubstr name2 name1 then mcAddPair mc name1 name2
      else mc
    mergeInner name1 rest mc2

/-- The outer loop of the first merge pass: `name1` is skipped (inner loop
and all) when it is already a canonical key. -/
def mergeOuter : List String → List (String × List String) → List (String × List String)
  | [], mc => mc
  | name1 :: rest, mc =>
    let mc2 := if mcHasKey mc name1 then mc else mergeInner name1 rest mc
    mergeOuter rest mc2

/-- First pass of `save_customer_orders`: build `merged_customers` from the
distinct customer names in first-seen order. -/
def merged_customers (names : List String) : List (String × List String) :=
  mergeOuter names []

/-- The lookup of the second pass: the first canonical group (in insertion
order) whose member list contains the name. -/
def findCanonical (mc : List (String × List String)) (name : String) : Option String :=
  match mc with
  | [] => none
  | p :: rest => if name ∈ p.2 then some p.1 else findCanonical rest name

/-- `merged_orders[merged_into].extend(orders)` with on-demand key creation. -/
def extendOrders (acc : List (String × List OrderDetails)) (k : String)
    (orders : List OrderDetails) : List (String × List OrderDetails) :=
  match alLookup acc k with
  | none => alInsert acc k orders
  | some prev => alInsert acc k (prev ++ orders)

/-- Second pass of `save_customer_orders`: fold each customer's history into
its canonical name's history (unmerged customers keep their own entry). -/
def merged_orders (mc : List (String × List String))
    (co : List (String × List OrderDetails)) : List (String × List OrderDetails) :=
  co.foldl (fun acc p =>
    match findCanonical mc p.1 with
    | some canon => extendOrders acc canon p.2
    | none => alInsert acc p.1 p.2) []

/-! ## Helper lemmas -/

/-- `String.toList` determines the string. -/
theorem string_toList_inj {s t : String} (h : s.toList = t.toList) : s = t := by
  cases s; cases t; exact congrArg String.mk h

theorem alLookup_alInsert_self {β : Type} (l : List (String × β)) (k : String) (v : β) :
    alLookup (alInsert l k v) k = some v := by
  induction l with
  | nil => simp [alInsert, alLookup]
  | cons p rest ih =>
    by_cases h : p.1 = k
    · simp [alInsert, alLookup, h]
    · simp [alInsert, alLookup, h, ih]

theorem alLookup_alInsert_ne {β : Type} (l : List (String × β)) (k k' : String) (v : β)
    (h : k' ≠ k) : alLookup (alInsert l k v) k' = alLookup l k' := by
  have h2 : ¬ k = k' := fun hh => h hh.symm
  induction l with
  | nil => simp [alInsert, alLookup, h2]
  | cons p rest ih =>
    by_cases hp : p.1 = k
    · simp [alInsert, alLookup, hp, h2]
    · simp [alInsert, alLookup, hp, ih]

/-- A no-fulfillment order only bumps the `NO_FULFILLMENT` counter. -/
theorem process_order_no_fulfillment (s : AggState) (o : Order) (h : o.fulfillments = []) :
    process_order s o =
      ({ s with counts := { s.counts with noFulfillment := s.counts.noFulfillment + 1 } },
        false) := by
  have h1 : o.firstFulfillment = none := by simp [Order.firstFulfillment, h]
  simp [process_order, h1]

/-! ## Claim C7 -/

/-- C7: an order with no fulfillment is classified `NO_FULFILLMENT` (only that
counter is bumped) and contributes nothing to the per-product totals, the
in-cart counters, or any customer's order history: the rest of the
aggregation state is returned unchanged. -/
theorem c7_no_fulfillment (s : AggState) (o : Order) (h : o.fulfillments = []) :
    process_order s o =
      ({ s with counts := { s.counts with noFulfillment := s.counts.noFulfillment + 1 } },
        false) :=
  process_order_no_fulfillment s o h

def c7order : Order := ⟨some "OC7", some "2025-03-01", some "OPEN", 0, [], []⟩

/-- Witness for C7 at a concrete order with no fulfillments. -/
theorem c7_no_fulfillment_witness :
    process_order initialState c7order =
      ({ initialState with counts :=
        { initialState.counts with noFulfillment := initialState.counts.noFulfillment + 1 } },
        false) :=
  c7_no_fulfillment initialState c7order rfl

/-! ## Claim C2 -/

def c2order : Order := ⟨some "WSFVqjYiFrqhAhemUkibkGP5YvBZY", none, some "OPEN", 0, [], []⟩

/-- C2 counterexample: a deny-listed order with no fulfillment IS assigned the
classification class `NO_FULFILLMENT` (its counter is incremented), because
the deny-list test runs only after the no-fulfillment check — refuting that a
deny-listed order is never counted in any class regardless of fulfillment. -/
theorem c2_counterexample :
    c2order.getOrderId ∈ DO_NOT_PROCESS_ORDER_IDS ∧
    (process_order initialState c2order).1.counts.noFulfillment = 1 := by
  constructor
  · decide
  · decide

/-- C2 (amended): a deny-listed order with a fulfillment is dropped before any
classification: no status counter moves and no aggregate or history changes;
a deny-listed order without a fulfillment is classified `NO_FULFILLMENT`
first, still contributing nothing to totals or histories. -/
theorem c2_denylist_amended (s : AggState) (o : Order)
    (hdeny : o.getOrderId ∈ DO_NOT_PROCESS_ORDER_IDS) :
    (o.fulfillments ≠ [] → process_order s o = (s, false)) ∧
    (o.fulfillments = [] → process_order s o =
      ({ s with counts := { s.counts with noFulfillment := s.counts.noFulfillment + 1 } },
        false)) := by
  constructor
  · intro hf
    have h1 : ¬ o.firstFulfillment = none := by
      cases ho : o.fulfillments with
      | nil => exact absurd ho hf
      | cons a l => simp [Order.firstFulfillment, ho]
    simp [process_order, h1, hdeny]
  · intro hf
    exact process_order_no_fulfillment s o hf

def c2fulfillment : Fulfillment := ⟨some "PROPOSED", some ⟨some "Dana"⟩, none⟩

def c2orderF : Order :=
  ⟨some "OO59PA9nVbYnK5xjnE5EJor3GFSZY", none, some "OPEN", 100, [c2fulfillment],
    [⟨some "CIDX", some "PRE-ORDER: Thing", none, some 1⟩]⟩

/-- Witness for C2 (amended) at a deny-listed order with a fulfillment. -/
theorem c2_denylist_witness :
    process_order initialState c2orderF = (initialState, false) :=
  (c2_denylist_amended initialState c2orderF (by decide)).1 (by decide)

/-! ## Claim C3 -/

def c3order : Order := ⟨some "OC3", none, some "OPEN", 500, [], []⟩

/-- C3 counterexample: an order with a positive net amount due whose customer
display name is not the allow-list name, but with no fulfillment, is NOT
classified `STILL_SHOPPING`: the no-fulfillment rule fires first. -/
theorem c3_counterexample :
    c3order.getAmountDue > 0 ∧
    c3order.customerDisplayName ≠ COMPLETED_ORDER_NAME ∧
    (process_order initialState c3order).1.counts.stillShopping = 0 ∧
    (process_order initialState c3order).1.counts.noFulfillment = 1 := by
  refine ⟨by decide, by decide, by decide, by decide⟩

/-- C3 (amended): an order with net amount due > 0 or state `DRAFT`, whose
customer display name is not the force-process allow-list name, and to which
no earlier rule applies (a fulfillment is present and the id is not
deny-listed), is classified `STILL_SHOPPING` and leaves the per-product
totals and every customer history unchanged. -/
theorem c3_still_shopping_amended (s : AggState) (o : Order)
    (hf : o.fulfillments ≠ [])
    (hdeny : o.getOrderId ∉ DO_NOT_PROCESS_ORDER_IDS)
    (hname : o.customerDisplayName ≠ COMPLETED_ORDER_NAME)
    (hshop : o.isStillShopping) :
    process_order s o =
      ({ s with counts := { s.counts with stillShopping := s.counts.stillShopping + 1 } },
        false) := by
  have h1 : ¬ o.firstFulfillment = none := by
    cases ho : o.fulfillments with
    | nil => exact absurd ho hf
    | cons a l => simp [Order.firstFulfillment, ho]
  simp [process_order, h1, hdeny, hname, hshop]

def c3fulfillment : Fulfillment := ⟨some "PROPOSED", some ⟨some "Dana"⟩, none⟩

def c3orderF : Order :=
  ⟨some "OC3F", none, some "OPEN", 250, [c3fulfillment],
    [⟨some "CIDY", some "PRE-ORDER: Thing", none, some 1⟩]⟩

/-- Witness for C3 (amended) at a concrete cart-balance order. -/
theorem c3_still_shopping_witness :
    process_order initialState c3orderF =
      ({ initialState with counts :=
        { initialState.counts with stillShopping := initialState.counts.stillShopping + 1 } },
        false) :=
  c3_still_shopping_amended initialState c3orderF (by decide) (by decide) (by decide)
    (by decide)

/-! ## Truncation toward zero -/

theorem truncToInt_of_nonneg (q : Rat) (h : 0 ≤ q) : truncToInt q = ⌊q⌋ := by
  unfold truncToInt
  rw [Rat.floor_def]
  exact Int.tdiv_eq_ediv (Rat.num_nonneg.mpr h) (Int.natCast_nonneg _)

/-- `truncToInt` is truncation toward zero: the floor of a nonnegative value
and the ceiling of a negative one. -/
theorem truncToInt_toward_zero (q : Rat) : truncToInt q = if 0 ≤ q then ⌊q⌋ else ⌈q⌉ := by
  by_cases h : 0 ≤ q
  · rw [if_pos h, truncToInt_of_nonneg q h]
  · rw [if_neg h]
    have hq : 0 ≤ -q := neg_nonneg.mpr (le_of_lt (lt_of_not_ge h))
    have h1 : truncToInt (-q) = ⌊-q⌋ := truncToInt_of_nonneg (-q) hq
    have h2 : truncToInt (-q) = - truncToInt q := by
      unfold truncToInt
      rw [Rat.neg_num, Rat.neg_den, Int.neg_tdiv]
    rw [Int.floor_neg, h2] at h1
    exact neg_inj.mp h1

/-! ## Accepted-order path -/

/-- For an accepted order, `process_order` reaches the aggregation tail:
counter bump, history key creation, the line-item loop, and (on success) the
appended order summary. -/
theorem process_order_accepted_eq (s : AggState) (o : Order) (hacc : orderAccepted o) :
    process_order s o =
      (let r := processLineItems o.lineItems ([], s.itemQuantities)
       let s1 : AggState :=
        { s with counts := { s.counts with notFulfilled := s.counts.notFulfilled + 1 },
                 customerOrders := ensureCustomerKey s.customerOrders o.customerDisplayName }
       if r.2 then
         ({ s1 with itemQuantities := r.1.2,
                    customerOrders := appendCustomerOrder s1.customerOrders o.customerDisplayName
                      ⟨o.getOrderId, o.getCreatedAt, o.getFulfillmentStatus, r.1.1⟩ }, true)
       else ({ s1 with itemQuantities := r.1.2 }, false)) := by
  obtain ⟨h1, h2, h3⟩ := hacc
  rcases h3 with hnm | ⟨hs, hc, hx⟩
  · simp [process_order, h1, h2, hnm]
  · simp [process_order, h1, h2, hs, hc, hx]

/-- The line-item loop succeeds when every quantity parses, producing the
order-detail records with truncated integer quantities. -/
theorem processLineItems_ok (lis : List LineItem)
    (detail : List (String × Int)) (itemQ : List (String × ItemAgg))
    (h : ∀ li ∈ lis, li.quantity.isSome) :
    (processLineItems lis (detail, itemQ)).2 = true ∧
    (processLineItems lis (detail, itemQ)).1.1 =
      detail ++ lis.map (fun li => (lineItemDisplayName li, truncToInt (li.quantity.getD 0))) := by
  induction lis generalizing detail itemQ with
  | nil => simp [processLineItems]
  | cons li rest ih =>
    obtain ⟨q, hq⟩ := Option.isSome_iff_exists.mp (h li (by simp))
    have hrest : ∀ li2 ∈ rest, li2.quantity.isSome := fun li2 h2 => h li2 (by simp [h2])
    obtain ⟨ih1, ih2⟩ := ih _ _ hrest
    constructor
    · simpa [processLineItems, processLineItem, hq] using ih1
    · simp [processLineItems, processLineItem, hq, ih2]

/-- The line-item loop stops at the first line item whose quantity does not
parse, keeping the accumulator state reached through the earlier items. -/
theorem processLineItems_fail (pre : List LineItem) (bad : LineItem) (post : List LineItem)
    (detail : List (String × Int)) (itemQ : List (String × ItemAgg))
    (hpre : ∀ li ∈ pre, li.quantity.isSome) (hbad : bad.quantity = none) :
    processLineItems (pre ++ bad :: post) (detail, itemQ) =
      ((processLineItems pre (detail, itemQ)).1, false) := by
  induction pre generalizing detail itemQ with
  | nil => simp [processLineItems, processLineItem, hbad]
  | cons li rest ih =>
    obtain ⟨q, hq⟩ := Option.isSome_iff_exists.mp (hpre li (by simp))
    have hrest : ∀ li2 ∈ rest, li2.quantity.isSome := fun li2 h2 => hpre li2 (by simp [h2])
    simp only [List.cons_append, processLineItems, processLineItem, hq]
    exact ih _ _ hrest

/-! ## Claim C8 -/

/-- C8: for an accepted order all of whose line-item quantities parse, each
quantity is recorded as the decimal truncated toward zero, and the customer's
order history receives the (name, quantity) record for every line item —
including those without a catalog item reference, which (second conjunct)
leave the per-product aggregate totals untouched. -/
theorem c8_line_item (s : AggState) (o : Order) (hacc : orderAccepted o)
    (hq : ∀ li ∈ o.lineItems, li.quantity.isSome) :
    process_order s o =
      ({ s with
          counts := { s.counts with notFulfilled := s.counts.notFulfilled + 1 },
          itemQuantities := (processLineItems o.lineItems ([], s.itemQuantities)).1.2,
          customerOrders := appendCustomerOrder
            (ensureCustomerKey s.customerOrders o.customerDisplayName) o.customerDisplayName
            ⟨o.getOrderId, o.getCreatedAt, o.getFulfillmentStatus,
              o.lineItems.map
                (fun li => (lineItemDisplayName li, truncToInt (li.quantity.getD 0)))⟩ },
        true) ∧
    (∀ (detail : List (String × Int)) (itemQ : List (String × ItemAgg)) (li : LineItem)
        (q : Rat), li.quantity = some q → li.catalogObjectId = none →
      processLineItem (detail, itemQ) li =
        some (detail ++ [(lineItemDisplayName li, truncToInt q)], itemQ)) := by
  constructor
  · obtain ⟨hok, hitems⟩ := processLineItems_ok o.lineItems [] s.itemQuantities hq
    rw [process_order_accepted_eq s o hacc]
    simp [hok, hitems]
  · intro detail itemQ li q hq2 hcat
    simp [processLineItem, hq2, hcat]

def c8fulfillment : Fulfillment := ⟨some "PROPOSED", some ⟨some "Alice"⟩, none⟩

def c8li1 : LineItem := ⟨some "CID8", some "PRE-ORDER: Widget", none, some 2⟩

def c8li2 : LineItem := ⟨none, some "Fabric", some "Fat Half", some (mkRat 5 2)⟩

def c8order : Order := ⟨some "OC8", some "2025-01-03", some "OPEN", 0, [c8fulfillment],
  [c8li1, c8li2]⟩

/-- Witness for C8: a catalog-less line item with quantity 5/2 is recorded in
the history as quantity 2 while leaving the totals map unchanged. -/
theorem c8_line_item_witness :
    (process_order initialState c8order =
      ({ initialState with
          counts := { initialState.counts with
            notFulfilled := initialState.counts.notFulfilled + 1 },
          itemQuantities := (processLineItems c8order.lineItems ([], [])).1.2,
          customerOrders := appendCustomerOrder (ensureCustomerKey [] "Alice") "Alice"
            ⟨"OC8", "2025-01-03", "PROPOSED",
              c8order.lineItems.map
                (fun li => (lineItemDisplayName li, truncToInt (li.quantity.getD 0)))⟩ },
        true)) ∧
    processLineItem ([], []) c8li2 = some ([("Fabric (Fat Half)", 2)], []) := by
  have h := c8_line_item initialState c8order (by decide)
    (by intro li h; fin_cases h <;> decide)
  refine ⟨?_, ?_⟩
  · simpa using h.1
  · simpa using h.2 [] [] c8li2 (mkRat 5 2) (by decide) (by decide)

/-! ## Claim C10 -/

/-- C10: when a line item of an accepted order fails to parse, the order is
reported failed (`false`), yet the `NOT_FULFILLED` counter bump and the
per-product increments of the earlier line items stay in the aggregation
state, while the customer history receives no order summary (at most the
empty key is created) — the state the claim describes as divergent. -/
theorem c10_partial_failure (s : AggState) (o : Order) (pre post : List LineItem)
    (bad : LineItem) (hacc : orderAccepted o) (hsplit : o.lineItems = pre ++ bad :: post)
    (hpre : ∀ li ∈ pre, li.quantity.isSome) (hbad : bad.quantity = none) :
    process_order s o =
      ({ s with
          counts := { s.counts with notFulfilled := s.counts.notFulfilled + 1 },
          customerOrders := ensureCustomerKey s.customerOrders o.customerDisplayName,
          itemQuantities := (processLineItems pre ([], s.itemQuantities)).1.2 }, false) := by
  rw [process_order_accepted_eq s o hacc, hsplit,
    processLineItems_fail pre bad post [] s.itemQuantities hpre hbad]
  simp

def c10badli : LineItem := ⟨none, some "Broken", none, none⟩

def c10order : Order := ⟨some "OC10", some "2025-01-02", some "OPEN", 0, [c8fulfillment],
  [c8li1, c10badli]⟩

/-- Witness for C10: after the failure the totals map holds the first item's
quantity 2 while the customer-history-derived expected totals are empty —
the two sides of the reconciliation have diverged. -/
theorem c10_partial_failure_witness :
    process_order initialState c10order =
      ({ initialState with
          counts := { initialState.counts with
            notFulfilled := initialState.counts.notFulfilled + 1 },
          customerOrders := ensureCustomerKey [] "Alice",
          itemQuantities := (processLineItems [c8li1] ([], [])).1.2 }, false) ∧
    alLookup (process_order initialState c10order).1.itemQuantities "CID8" =
      some ⟨"PRE-ORDER: Widget", 2, 0⟩ ∧
    expected_totals (process_order initialState c10order).1.customerOrders = [] := by
  refine ⟨?_, by decide, by decide⟩
  have h := c10_partial_failure initialState c10order [c8li1] [] c10badli (by decide) rfl
    (by intro li hli; fin_cases hli; decide) rfl
  simpa using h

/-! ## Claim C6 -/

/-- One `gciCore` step never fetches an id that is already cached, provided
the recursive prefetch has the same property. -/
theorem gciCore_no_refetch (remote : String → Option CatalogObj)
    (recur : List (String × CatalogObj) → String → GCResult)
    (cache : List (String × CatalogObj)) (x pid : String)
    (hin : (alLookup cache pid).isSome)
    (hrec : ∀ c y, (alLookup c pid).isSome → pid ∉ (recur c y).fetched) :
    pid ∉ (gciCore remote recur cache x).fetched := by
  rcases hl : alLookup cache x with _ | v
  · have hx : ¬ pid = x := by
      intro h; subst h; rw [hl] at hin; simp at hin
    rcases hr : remote x with _ | d
    · simp [gciCore, hl, hr, hx]
    · by_cases hd : d.ctype = "ITEM_VARIATION" ∧ d.parentItemId ≠ ""
      · have hin1 : (alLookup (alInsert cache x d) pid).isSome := by
          rw [alLookup_alInsert_ne cache x pid d hx]; exact hin
        have hrec2 := hrec (alInsert cache x d) d.parentItemId hin1
        simp [gciCore, hl, hr, hd, hx, hrec2]
      · simp [gciCore, hl, hr, hd, hx]
  · by_cases hv : v.ctype = "ITEM_VARIATION" ∧ v.parentItem = true
    · simp [gciCore, hl, hv]
    · simp [gciCore, hl, hv]

/-- An id already present in the cache is never fetched remotely by any
`get_catalog_item` call. -/
theorem gci_no_refetch (remote : String → Option CatalogObj) :
    ∀ (fuel : Nat) (cache : List (String × CatalogObj)) (x pid : String),
      (alLookup cache pid).isSome →
      pid ∉ (get_catalog_item remote fuel cache x).fetched := by
  intro fuel
  induction fuel with
  | zero =>
    intro cache x pid hin
    simp only [get_catalog_item]
    exact gciCore_no_refetch remote _ cache x pid hin (by intro c y h; simp)
  | succ f ih =>
    intro cache x pid hin
    simp only [get_catalog_item]
    exact gciCore_no_refetch remote _ cache x pid hin (fun c y h => ih c y pid h)

/-- One `gciCore` step preserves a cached binding whose object carries no
stale `parent_item` field, provided the recursive prefetch does. -/
theorem gciCore_preserves (remote : String → Option CatalogObj)
    (recur : List (String × CatalogObj) → String → GCResult)
    (cache : List (String × CatalogObj)) (x pid : String) (obj : CatalogObj)
    (hp : alLookup cache pid = some obj) (hstale : obj.parentItem = false)
    (hrec : ∀ c y, alLookup c pid = some obj → alLookup ((recur c y).cache) pid = some obj) :
    alLookup (gciCore remote recur cache x).cache pid = some obj := by
  rcases hl : alLookup cache x with _ | v
  · have hx : ¬ pid = x := by
      intro h; subst h; rw [hl] at hp; simp at hp
    rcases hr : remote x with _ | d
    · simp [gciCore, hl, hr, hp]
    · have hp1 : alLookup (alInsert cache x d) pid = some obj := by
        rw [alLookup_alInsert_ne cache x pid d hx]; exact hp
      by_cases hd : d.ctype = "ITEM_VARIATION" ∧ d.parentItemId ≠ ""
      · have hp2 := hrec (alInsert cache x d) d.parentItemId hp1
        simp [gciCore, hl, hr, hd, hp2]
      · simp [gciCore, hl, hr, hd, hp1]
  · by_cases hv : v.ctype = "ITEM_VARIATION" ∧ v.parentItem = true
    · have hx : ¬ pid = x := by
        intro h
        subst h
        rw [hl] at hp
        injection hp with he
        rw [← he] at hstale
        rw [hv.2] at hstale
        exact Bool.noConfusion hstale
      have hp2 : alLookup (alInsert cache x { v with parentItem := false }) pid = some obj := by
        rw [alLookup_alInsert_ne cache x pid _ hx]; exact hp
      simp [gciCore, hl, hv]
      simpa [hv.1] using hp2
    · simp [gciCore, hl, hv, hp]

/-- `get_catalog_item` preserves a cached binding whose object carries no
stale `parent_item` field. -/
theorem gci_preserves (remote : String → Option CatalogObj) :
    ∀ (fuel : Nat) (cache : List (String × CatalogObj)) (x pid : String) (obj : CatalogObj),
      alLookup cache pid = some obj → obj.parentItem = false →
      alLookup (get_catalog_item remote fuel cache x).cache pid = some obj := by
  intro fuel
  induction fuel with
  | zero =>
    intro cache x pid obj hp hstale
    simp only [get_catalog_item]
    exact gciCore_preserves remote _ cache x pid obj hp hstale (by intro c y h; simpa)
  | succ f ih =>
    intro cache x pid obj hp hstale
    simp only [get_catalog_item]
    exact gciCore_preserves remote _ cache x pid obj hp hstale
      (fun c y h => ih c y pid obj h hstale)

/-- A cache hit on an object without a stale `parent_item` field answers from
the cache: no remote fetch, no cache change, the cached object returned. -/
theorem gci_hit (remote : String → Option CatalogObj) (fuel : Nat)
    (cache : List (String × CatalogObj)) (pid : String) (obj : CatalogObj)
    (hp : alLookup cache pid = some obj) (hstale : obj.parentItem = false) :
    get_catalog_item remote fuel cache pid = ⟨some obj, cache, []⟩ := by
  have hcond : ¬ (obj.ctype = "ITEM_VARIATION" ∧ obj.parentItem = true) := by
    simp [hstale]
  cases fuel with
  | zero => simp [get_catalog_item, gciCore, hp, hcond]
  | succ f => simp [get_catalog_item, gciCore, hp, hcond]

/-- A cache miss with a successful remote fetch returns the fetched object,
stores it in the cache, and fetches the id exactly once. -/
theorem gci_miss_success (remote : String → Option CatalogObj) (fuel : Nat)
    (cache : List (String × CatalogObj)) (pid : String) (obj : CatalogObj)
    (hmiss : alLookup cache pid = none) (hfetch : remote pid = some obj)
    (hstale : obj.parentItem = false) :
    (get_catalog_item remote fuel cache pid).found = some obj ∧
    alLookup (get_catalog_item remote fuel cache pid).cache pid = some obj ∧
    ∃ t, (get_catalog_item remote fuel cache pid).fetched = pid :: t ∧ pid ∉ t := by
  have hself : alLookup (alInsert cache pid obj) pid = some obj :=
    alLookup_alInsert_self cache pid obj
  cases fuel with
  | zero =>
    have heq : get_catalog_item remote 0 cache pid = ⟨some obj, alInsert cache pid obj, [pid]⟩ := by
      by_cases hd : obj.ctype = "ITEM_VARIATION" ∧ obj.parentItemId ≠ ""
      · simp [get_catalog_item, gciCore, hmiss, hfetch, hd]
      · simp [get_catalog_item, gciCore, hmiss, hfetch, hd]
    rw [heq]
    exact ⟨rfl, hself, [], rfl, by simp⟩
  | succ f =>
    by_cases hd : obj.ctype = "ITEM_VARIATION" ∧ obj.parentItemId ≠ ""
    · have heq : get_catalog_item remote (f + 1) cache pid =
          ⟨some obj,
            (get_catalog_item remote f (alInsert cache pid obj) obj.parentItemId).cache,
            pid :: (get_catalog_item remote f (alInsert cache pid obj) obj.parentItemId).fetched⟩ := by
        simp [get_catalog_item, gciCore, hmiss, hfetch, hd]
      rw [heq]
      refine ⟨rfl, ?_, ?_⟩
      · exact gci_preserves remote f (alInsert cache pid obj) obj.parentItemId pid obj
          hself hstale
      · exact ⟨_, rfl, gci_no_refetch remote f (alInsert cache pid obj) obj.parentItemId pid
          (by rw [hself]; rfl)⟩
    · have heq : get_catalog_item remote (f + 1) cache pid =
          ⟨some obj, alInsert cache pid obj, [pid]⟩ := by
        simp [get_catalog_item, gciCore, hmiss, hfetch, hd]
      rw [heq]
      exact ⟨rfl, hself, [], rfl, by simp⟩

def c6remote : String → Option CatalogObj := fun _ => none

/-- C6 counterexample: with an empty cache and a product id whose remote
fetch fails, resolving the same id twice issues two remote fetches (the
failure is not cached), and the first resolution stores nothing — refuting
"exactly one remote fetch" for every product id. -/
theorem c6_counterexample :
    ((get_catalog_item c6remote 1 [] "X").fetched ++
        (get_catalog_item c6remote 1 (get_catalog_item c6remote 1 [] "X").cache "X").fetched).count
      "X" = 2 ∧
    (get_catalog_item c6remote 1 [] "X").cache = [] := by
  exact ⟨by decide, by decide⟩

/-- C6 (amended): for a product id not already cached whose remote fetch
succeeds (yielding an object without a stale embedded `parent_item` field),
resolving the id twice issues exactly one remote fetch of that id: the first
resolution fetches and caches the object, and the second is answered from the
cache with no remote call and no cache change, returning the same object. -/
theorem c6_cache_roundtrip_amended (remote : String → Option CatalogObj) (fuel1 fuel2 : Nat)
    (cache : List (String × CatalogObj)) (pid : String) (obj : CatalogObj)
    (hmiss : alLookup cache pid = none) (hfetch : remote pid = some obj)
    (hstale : obj.parentItem = false) :
    (get_catalog_item remote fuel1 cache pid).found = some obj ∧
    get_catalog_item remote fuel2 (get_catalog_item remote fuel1 cache pid).cache pid =
      ⟨some obj, (get_catalog_item remote fuel1 cache pid).cache, []⟩ ∧
    ((get_catalog_item remote fuel1 cache pid).fetched ++
        (get_catalog_item remote fuel2 (get_catalog_item remote fuel1 cache pid).cache
          pid).fetched).count pid = 1 := by
  obtain ⟨h1, h2, t, h3, h4⟩ := gci_miss_success remote fuel1 cache pid obj hmiss hfetch hstale
  have hhit := gci_hit remote fuel2 _ pid obj h2 hstale
  refine ⟨h1, hhit, ?_⟩
  rw [h3, hhit]
  have h5 : t.count pid = 0 := List.count_eq_zero.mpr h4
  simp [h5]

def c6obj : CatalogObj := ⟨"ITEM", "", [], false⟩

def c6remoteW : String → Option CatalogObj := fun i => if i = "W" then some c6obj else none

/-- Witness for C6 (amended) at a concrete uncached id with a working fetch. -/
theorem c6_cache_roundtrip_witness :
    (get_catalog_item c6remoteW 1 [] "W").found = some c6obj ∧
    get_catalog_item c6remoteW 1 (get_catalog_item c6remoteW 1 [] "W").cache "W" =
      ⟨some c6obj, (get_catalog_item c6remoteW 1 [] "W").cache, []⟩ ∧
    ((get_catalog_item c6remoteW 1 [] "W").fetched ++
        (get_catalog_item c6remoteW 1 (get_catalog_item c6remoteW 1 [] "W").cache
          "W").fetched).count "W" = 1 :=
  c6_cache_roundtrip_amended c6remoteW 1 1 [] "W" c6obj rfl (by decide) rfl

/-! ## Claim C4 -/

def c4item : CatalogObj := ⟨"ITEM", "", ["CAT123"], false⟩

def c4remote : String → Option CatalogObj := fun _ => none

/-- C4 counterexample: a plain item (type `ITEM`) whose own category
references contain the configured identifier.  Resolving it to itself per the
claim's rule yields membership `true`, yet `is_market_item` returns `False` —
the "exactly when" biconditional fails on plain items. -/
theorem c4_counterexample :
    c4item.ctype = "ITEM" ∧
    c4item.categoryIds.contains "CAT123" = true ∧
    (is_market_item "CAT123" c4remote 1 [] (some c4item)).1 = Except.ok false ∧
    specCategoryMember "CAT123" c4remote 1 [] c4item = some true :=
  ⟨rfl, rfl, rfl, rfl⟩

/-- C4 (amended): the membership test returns `True` exactly when the object
is an `ITEM_VARIATION` whose parent item resolves successfully and carries a
category reference equal to the configured identifier; a plain item (or a
falsy input) always tests `False` — its own category references are never
consulted. -/
theorem c4_category_membership_amended (mk : String) (remote : String → Option CatalogObj)
    (fuel : Nat) (cache : List (String × CatalogObj)) (item : Option CatalogObj) :
    ((is_market_item mk remote fuel cache item).1 = Except.ok true ↔
      ∃ v, item = some v ∧ v.ctype = "ITEM_VARIATION" ∧
        ∃ p, (get_catalog_item remote fuel cache v.parentItemId).found = some p ∧
          p.categoryIds.contains mk = true) ∧
    (∀ v, item = some v → v.ctype ≠ "ITEM_VARIATION" →
      (is_market_item mk remote fuel cache item).1 = Except.ok false) := by
  constructor
  · rcases item with _ | v
    · simp [is_market_item]
    · by_cases hv : v.ctype = "ITEM_VARIATION"
      · rcases hr : (get_catalog_item remote fuel cache v.parentItemId).found with _ | p
        · simp [is_market_item, hv, hr]
        · simp [is_market_item, hv, hr]
      · simp [is_market_item, hv]
  · intro v hv hnv
    subst hv
    simp [is_market_item, hnv]

/-- Witness for C4 (amended): the plain-item clause applied at `c4item`. -/
theorem c4_category_membership_witness :
    (is_market_item "CAT123" c4remote 1 [] (some c4item)).1 = Except.ok false :=
  (c4_category_membership_amended "CAT123" c4remote 1 [] (some c4item)).2 c4item rfl
    (by decide)

/-! ## Claim C9 -/

/-- C9: when an `ITEM_VARIATION` reaches the membership test and its parent
resolution returns not-found, `is_market_item` raises (`Except.error`) rather
than returning `False`, and the report-preparation filter that invoked it
aborts with that exception instead of skipping the item. -/
theorem c9_variation_parent_missing (mk : String) (remote : String → Option CatalogObj)
    (fuel : Nat) (cache0 : List (String × CatalogObj)) (itemId : String) (agg : ItemAgg)
    (v : CatalogObj) (hv : v.ctype = "ITEM_VARIATION")
    (hfound : (get_catalog_item remote fuel cache0 itemId).found = some v)
    (hpar : (get_catalog_item remote fuel (get_catalog_item remote fuel cache0 itemId).cache
      v.parentItemId).found = none) :
    (is_market_item mk remote fuel (get_catalog_item remote fuel cache0 itemId).cache
      (some v)).1 = Except.error () ∧
    (collect_market_items mk remote fuel [(itemId, agg)] cache0).1 = Except.error () := by
  have h1 : (is_market_item mk remote fuel (get_catalog_item remote fuel cache0 itemId).cache
      (some v)).1 = Except.error () := by
    simp [is_market_item, hv, hpar]
  refine ⟨h1, ?_⟩
  have h2 : is_market_item mk remote fuel (get_catalog_item remote fuel cache0 itemId).cache
      (some v) = (Except.error (),
        (get_catalog_item remote fuel (get_catalog_item remote fuel cache0 itemId).cache
          v.parentItemId).cache) := by
    simp [is_market_item, hv, hpar]
  simp [collect_market_items, hfound, h2]

def c9vObj : CatalogObj := ⟨"ITEM_VARIATION", "P1", [], false⟩

def c9remote : String → Option CatalogObj := fun i => if i = "V1" then some c9vObj else none

/-- Witness for C9: a concrete variation whose parent fetch fails. -/
theorem c9_variation_parent_missing_witness :
    (is_market_item "CAT" c9remote 2 (get_catalog_item c9remote 2 [] "V1").cache
      (some c9vObj)).1 = Except.error () ∧
    (collect_market_items "CAT" c9remote 2 [("V1", ⟨"n", 1, 0⟩)] []).1 = Except.error () :=
  c9_variation_parent_missing "CAT" c9remote 2 [] "V1" ⟨"n", 1, 0⟩ c9vObj rfl rfl rfl

/-! ## Claim C5 -/

theorem mem_insertSortedStr (x y : String) (l : List String) :
    y ∈ insertSortedStr x l ↔ y = x ∨ y ∈ l := by
  induction l with
  | nil => simp [insertSortedStr]
  | cons z zs ih =>
    by_cases h : charListLe x.data z.data = true
    · simp [insertSortedStr, h]
    · simp [insertSortedStr, h, ih]
      tauto

theorem mem_sortStrings (y : String) (l : List String) :
    y ∈ sortStrings l ↔ y ∈ l := by
  induction l with
  | nil => simp [sortStrings]
  | cons x xs ih => simp [sortStrings, mem_insertSortedStr, ih]

theorem mem_dedupKeep (y : String) (l : List String) :
    y ∈ dedupKeep l ↔ y ∈ l := by
  induction l with
  | nil => simp [dedupKeep]
  | cons x xs ih =>
    by_cases h : y = x
    · simp [dedupKeep, h]
    · simp [dedupKeep, h, List.mem_filter, ih]

theorem mem_validator_all_items (expected actual : List (String × Int)) (n : String) :
    n ∈ validator_all_items expected actual ↔
      (n ∈ expected.map Prod.fst ∨ n ∈ actual.map Prod.fst) ∧ isReportableName n = true := by
  simp [validator_all_items, mem_sortStrings, List.mem_filter, mem_dedupKeep]

/-- C5: for every name carrying the reportable marker that occurs in the
expected-totals map (summed from the stored customer histories) or in the
actual-totals map, the validator emits a discrepancy diagnostic exactly when
the two totals differ (a missing entry reading as zero), and every emitted
diagnostic for that name records the expected and actual totals together with
every stored order line carrying the name. -/
theorem c5_validator (co : List (String × List OrderDetails)) (actual : List (String × Int))
    (n : String) (hrep : isReportableName n = true)
    (hmem : n ∈ (expected_totals co).map Prod.fst ∨ n ∈ actual.map Prod.fst) :
    ((∃ d ∈ validator_discrepancies co actual, d.item = n) ↔
      (alLookup (expected_totals co) n).getD 0 ≠ (alLookup actual n).getD 0) ∧
    (∀ d ∈ validator_discrepancies co actual, d.item = n →
      d.expected = (alLookup (expected_totals co) n).getD 0 ∧
      d.actual = (alLookup actual n).getD 0 ∧
      d.lines = matchingOrderLines co n) := by
  constructor
  · constructor
    · rintro ⟨d, hd, hdn⟩
      rw [validator_discrepancies, List.mem_filterMap] at hd
      obtain ⟨a, _, hfa⟩ := hd
      by_cases hne : (alLookup (expected_totals co) a).getD 0 ≠ (alLookup actual a).getD 0
      · rw [if_pos hne] at hfa
        injection hfa with he
        rw [← he] at hdn
        simp at hdn
        rw [← hdn]
        exact hne
      · rw [if_neg hne] at hfa
        exact absurd hfa (by simp)
    · intro hne
      refine ⟨⟨n, (alLookup (expected_totals co) n).getD 0, (alLookup actual n).getD 0,
        matchingOrderLines co n⟩, ?_, rfl⟩
      rw [validator_discrepancies, List.mem_filterMap]
      exact ⟨n, (mem_validator_all_items _ actual n).mpr ⟨hmem, hrep⟩, by rw [if_pos hne]⟩
  · intro d hd hdn
    rw [validator_discrepancies, List.mem_filterMap] at hd
    obtain ⟨a, _, hfa⟩ := hd
    by_cases hne : (alLookup (expected_totals co) a).getD 0 ≠ (alLookup actual a).getD 0
    · rw [if_pos hne] at hfa
      injection hfa with he
      rw [← he] at hdn
      simp at hdn
      rw [← he, ← hdn]
      exact ⟨rfl, rfl, rfl⟩
    · rw [if_neg hne] at hfa
      exact absurd hfa (by simp)

def c5history : List (String × List OrderDetails) :=
  [("Alice", [⟨"ORD1", "2025-01-01", "PROPOSED", [("PRE-ORDER: Widget", 5)]⟩])]

/-- Witness for C5 on the spec's example: expected `{"PRE-ORDER: Widget": 5}`
against actual `5` reports nothing; actual `4` reports one discrepancy whose
lines list the stored order carrying the name. -/
theorem c5_validator_witness :
    (∃ d ∈ validator_discrepancies c5history [("PRE-ORDER: Widget", 4)],
      d.item = "PRE-ORDER: Widget") ∧
    validator_discrepancies c5history [("PRE-ORDER: Widget", 4)] =
      [⟨"PRE-ORDER: Widget", 5, 4, [("ORD1", "Alice", 5, "PROPOSED", "2025-01-01")]⟩] ∧
    validator_discrepancies c5history [("PRE-ORDER: Widget", 5)] = [] := by
  refine ⟨?_, by decide, by decide⟩
  exact ((c5_validator c5history [("PRE-ORDER: Widget", 4)] "PRE-ORDER: Widget" (by decide)
    (by decide)).1).mpr (by decide)

/-! ## Claim C1 -/

theorem pySubstr_trans {a b c : String} (h1 : pySubstr a b = true) (h2 : pySubstr b c = true) :
    pySubstr a c = true := by
  have i1 := of_decide_eq_true h1
  have i2 := of_decide_eq_true h2
  exact decide_eq_true (i1.trans i2)

theorem pySubstr_length_lt {a b : String} (h : pySubstr a b = true) (hne : a ≠ b) :
    a.length < b.length := by
  have i := of_decide_eq_true h
  have hle : a.toList.length ≤ b.toList.length := i.length_le
  have hneq : a.toList.length ≠ b.toList.length := by
    intro he
    exact hne (string_toList_inj (i.eq_of_length he))
  exact lt_of_le_of_ne hle hneq

/-- C1 (amended): for distinct names with `A` a substring of `B` and `B` a
substring of `C`, when the longest name `C` is the first of the three to be
collected, all three names fall into `C`'s merge group and `C`'s history
receives all three customers' orders (both remaining collection orders). -/
theorem c1_merge_closure_amended (A B C : String) (oa ob oc : List OrderDetails)
    (hA : A ≠ "") (hAB : pySubstr A B = true) (hBC : pySubstr B C = true)
    (hABne : A ≠ B) (hBCne : B ≠ C) :
    (findCanonical (merged_customers [C, A, B]) A = some C ∧
     findCanonical (merged_customers [C, A, B]) B = some C ∧
     findCanonical (merged_customers [C, A, B]) C = some C ∧
     merged_orders (merged_customers [C, A, B]) [(C, oc), (A, oa), (B, ob)] =
       [(C, oc ++ oa ++ ob)]) ∧
    (findCanonical (merged_customers [C, B, A]) A = some C ∧
     findCanonical (merged_customers [C, B, A]) B = some C ∧
     findCanonical (merged_customers [C, B, A]) C = some C ∧
     merged_orders (merged_customers [C, B, A]) [(C, oc), (B, ob), (A, oa)] =
       [(C, oc ++ ob ++ oa)]) := by
  have hAC : pySubstr A C = true := pySubstr_trans hAB hBC
  have hlab : A.length < B.length := pySubstr_length_lt hAB hABne
  have hlbc : B.length < C.length := pySubstr_length_lt hBC hBCne
  have hlac : A.length < C.length := hlab.trans hlbc
  have hACne : ¬ A = C := by
    intro h
    rw [h] at hlac
    exact absurd hlac (lt_irrefl _)
  have hCAne : ¬ C = A := fun h => hACne h.symm
  have hBAne : ¬ B = A := fun h => hABne h.symm
  have hCBne : ¬ C = B := fun h => hBCne h.symm
  have hABne2 : ¬ A = B := hABne
  have hBCne2 : ¬ B = C := hBCne
  have hgeCA : A.length ≤ C.length := le_of_lt hlac
  have hgeCB : B.length ≤ C.length := le_of_lt hlbc
  have hgeBA : A.length ≤ B.length := le_of_lt hlab
  have hnotAB : ¬ B.length ≤ A.length := not_le.mpr hlab
  have hmc1 : merged_customers [C, A, B] = [(C, [C, A, B]), (B, [A, B])] := by
    simp [merged_customers, mergeOuter, mergeInner, mcHasKey, mcAddPair, mcAppendMember,
      hAB, hBC, hAC, hCAne, hBAne, hCBne, hABne2, hBCne2, hACne,
      hgeCA, hgeCB, hnotAB, hgeBA]
  have hmc2 : merged_customers [C, B, A] = [(C, [C, B, A]), (B, [B, A])] := by
    simp [merged_customers, mergeOuter, mergeInner, mcHasKey, mcAddPair, mcAppendMember,
      hAB, hBC, hAC, hCAne, hBAne, hCBne, hABne2, hBCne2, hACne,
      hgeCA, hgeCB, hnotAB, hgeBA]
  rw [hmc1, hmc2]
  refine ⟨⟨?_, ?_, ?_, ?_⟩, ⟨?_, ?_, ?_, ?_⟩⟩
  · simp [findCanonical]
  · simp [findCanonical]
  · simp [findCanonical]
  · simp [merged_orders, findCanonical, extendOrders, alLookup, alInsert, hACne, hABne2]
  · simp [findCanonical]
  · simp [findCanonical]
  · simp [findCanonical]
  · simp [merged_orders, findCanonical, extendOrders, alLookup, alInsert, hACne, hBCne2]

def c1oa : List OrderDetails := [⟨"O1", "t1", "s1", []⟩]

def c1ob : List OrderDetails := [⟨"O2", "t2", "s2", []⟩]

def c1oc : List OrderDetails := [⟨"O3", "t3", "s3", []⟩]

/-- C1 counterexample: the names `"A" ⊂ "AB" ⊂ "ABC"` collected in that order
do NOT end in one merge group: the skip test `name1 in merged_customers`
checks canonical keys only, so the pair (`"AB"`, `"ABC"`) is never unioned;
`"A"` and `"AB"` merge under canonical `"AB"` while `"ABC"` stays alone, and
the longest name receives only its own orders. -/
theorem c1_counterexample :
    pySubstr "A" "AB" = true ∧ pySubstr "AB" "ABC" = true ∧
    ("A" : String) ≠ "" ∧ ("A" : String) ≠ "AB" ∧ ("AB" : String) ≠ "ABC" ∧
    findCanonical (merged_customers ["A", "AB", "ABC"]) "A" = some "AB" ∧
    findCanonical (merged_customers ["A", "AB", "ABC"]) "ABC" = some "ABC" ∧
    merged_orders (merged_customers ["A", "AB", "ABC"])
      [("A", c1oa), ("AB", c1ob), ("ABC", c1oc)] =
      [("AB", [⟨"O1", "t1", "s1", []⟩, ⟨"O2", "t2", "s2", []⟩]),
        ("ABC", [⟨"O3", "t3", "s3", []⟩])] := by
  decide

/-- Witness for C1 (amended) with the longest name collected first. -/
theorem c1_merge_closure_witness :
    (findCanonical (merged_customers ["ABC", "A", "AB"]) "A" = some "ABC" ∧
     findCanonical (merged_customers ["ABC", "A", "AB"]) "AB" = some "ABC" ∧
     findCanonical (merged_customers ["ABC", "A", "AB"]) "ABC" = some "ABC" ∧
     merged_orders (merged_customers ["ABC", "A", "AB"])
       [("ABC", c1oc), ("A", c1oa), ("AB", c1ob)] = [("ABC", c1oc ++ c1oa ++ c1ob)]) ∧
    (findCanonical (merged_customers ["ABC", "AB", "A"]) "A" = some "ABC" ∧
     findCanonical (merged_customers ["ABC", "AB", "A"]) "AB" = some "ABC" ∧
     findCanonical (merged_customers ["ABC", "AB", "A"]) "ABC" = some "ABC" ∧
     merged_orders (merged_customers ["ABC", "AB", "A"])
       [("ABC", c1oc), ("AB", c1ob), ("A", c1oa)] = [("ABC", c1oc ++ c1ob ++ c1oa)]) :=
  c1_merge_closure_amended "A" "AB" "ABC" c1oa c1ob c1oc (by decide) (by decide) (by decide)
    (by decide) (by decide)

end PreorderGather
